import Mathlib

/-!
Verification development for the zerodisk block-storage core.

Shallow embedding of:
  * the ARDB cluster routing code (`ComputeServerIndex`, `NewCluster`,
    `UniCluster.DoForAll`, `Cluster.DoForAll`, `TemplateCluster.Do/DoFor`);
  * the backup server driver (`hashAsDirAndFile`, `ftpDriver.lazyStore`,
    `ftpDriver.SetDedupedBlock`, `inflationBlockFetcher.FetchBlock`);
  * the LBA shard serialization (`shard.Write`).

Conventions:
  * Go `int64` is embedded as `Int`; Go `uint64` arithmetic is `Nat` with
    explicit `% 2 ^ 64`; Go `%` / `/` on `int64` are `Int.tmod` / `Int.tdiv`
    (truncated toward zero, as in Go).
  * Byte slices are `List Nat` (each entry one byte).
  * Fallible Go code returns `Except`; Go runtime panics that are reachable in
    the embedded fragments are explicit error constructors.
  * The jump-consistent-hash fallback in `ComputeServerIndex` uses `float64`
    arithmetic; it is embedded exactly, with IEEE-754 binary64
    round-to-nearest-even modelled over `ℚ` (normal range only, which covers
    every value that computation can produce).
-/

namespace Zerodisk

/-- Go server states (`config.StorageServerState`). -/
inductive GoState where
  | online
  | offline
  | respread
  | rip
  deriving DecidableEq, Repr

/-- Go `config.StorageServerConfig`: `{Address, Database, State}`. -/
structure ServerCfg where
  address : String
  database : Int
  state : GoState
  deriving DecidableEq, Repr

/-- The error values surfaced by the embedded cluster code, together with
explicit markers for reachable Go runtime panics and for exhaustion of the
fuel that bounds the (possibly unbounded) jump-hash search loop. -/
inductive GoErr where
  | noServersAvailable
  | serverStateNotSupported
  | serverUnavailable
  | invalidConfig
  | methodNotSupported
  | clusterNotDefined
  | panicIndexOutOfRange
  | panicDivisionByZero
  | modelFuelExhausted
  deriving DecidableEq, Repr

/-! ## Exact IEEE-754 binary64 model (normal range)

`ComputeServerIndex`'s fallback loop computes
`j = int64(float64(serverIndex+1) * (float64(int64(1)<<31) / float64((key>>33)+1)))`.
All values arising there are positive and well inside the normal binary64
range, so rounding a positive rational to the nearest (ties-to-even) binary64
value is an exact model of the Go arithmetic. -/

/-- Round `p / q` (with `q ≠ 0`) to the nearest natural number,
ties to even. -/
def roundHalfEven (p q : Nat) : Nat :=
  let m := p / q
  let r := p % q
  if 2 * r < q then m
  else if q < 2 * r then m + 1
  else if m % 2 = 0 then m else m + 1

/-- Compute, as `floorLog2 n d`, `⌊log₂ (n / d)⌋` for positive `n d`,
as an integer (possibly negative). -/
def floorLog2 (n d : Nat) : Int :=
  if n ≥ d then
    Int.ofNat (Nat.log2 (n / d))
  else
    -- scale up so the quotient is ≥ 1, then shift the result back
    let s := d.log2 + 65
    Int.ofNat (Nat.log2 (n * 2 ^ s / d)) - Int.ofNat s

/-- Round a positive rational to the nearest IEEE-754 binary64 value
(ties to even); normal range only. -/
def f64roundPos (x : ℚ) : ℚ :=
  let n := x.num.toNat
  let d := x.den
  let e : Int := floorLog2 n d
  -- mantissa scaled so that 2 ^ 52 ≤ m < 2 ^ 53 (before rounding carry)
  let sh : Int := 52 - e
  let m : Nat :=
    if 0 ≤ sh then roundHalfEven (n * 2 ^ sh.toNat) d
    else roundHalfEven n (d * 2 ^ (-sh).toNat)
  if 0 ≤ e - 52 then ((m * 2 ^ (e - 52).toNat : Nat) : ℚ)
  else (m : ℚ) / ((2 ^ (52 - e).toNat : Nat) : ℚ)

/-- Round any rational to the nearest binary64 value (normal range). -/
def f64round (x : ℚ) : ℚ :=
  if x = 0 then 0
  else if x < 0 then -f64roundPos (-x)
  else f64roundPos x

/-- Go `float64(v)` for an integer `v`. -/
def f64ofInt (v : Int) : ℚ := f64round (v : ℚ)

/-- Go float64 multiplication (round-to-nearest of the exact product). -/
def f64mul (a b : ℚ) : ℚ := f64round (a * b)

/-- Go float64 division (round-to-nearest of the exact quotient). -/
def f64div (a b : ℚ) : ℚ := f64round (a / b)

/-- Go `int64(x)` for a float64 `x`: truncation toward zero. -/
def f64toInt (x : ℚ) : Int :=
  if 0 ≤ x then ⌊x⌋ else ⌈x⌉

/-! ## `ComputeServerIndex` (src/unnamed/part_001, lines 559-590) -/

/-- A Go `ServerIndexPredicate`: `func(serverIndex int64) (bool, error)`. -/
def Pred (E : Type) := Int → Bool × Option E

/-- Result of the embedded `ComputeServerIndex`: the Go function returns the
pair `(serverIndex, err)`; the extra constructors mark the reachable runtime
panic (`objectIndex % 0`) and exhaustion of the model's fuel for the
unbounded search loop. -/
inductive RouteResult (E : Type) where
  | ret (serverIndex : Int) (err : Option E)
  | panicDivZero
  | fuelOut
  deriving DecidableEq, Repr

/-- One inner pass of the jump-consistent-hash loop
(`for j < serverCount { serverIndex = j; key = key*K + 1; j = ... }`),
returning the final `serverIndex`. The fuel bounds the loop; `none` means the
model's fuel ran out (the Go loop would keep iterating). -/
def jumpLoop (serverCount : Int) : Nat → Nat → Int → Int → Option Int
  | 0, _, _, _ => none
  | fuel + 1, key, j, serverIndex =>
    if j < serverCount then
      let serverIndex' := j
      let key' := (key * 2862933555777941757 + 1) % 2 ^ 64
      let j' := f64toInt
        (f64mul (f64ofInt (serverIndex' + 1))
          (f64div (f64ofInt (Int.ofNat (2 ^ 31))) (f64ofInt (Int.ofNat (key' / 2 ^ 33 + 1)))))
      jumpLoop serverCount fuel key' j' serverIndex'
    else
      some serverIndex

/-- Go `uint64(v)` for an `int64` value (two's-complement reinterpretation). -/
def uint64ofInt (v : Int) : Nat := (v % 2 ^ 64).toNat

/-- The outer retry loop of `ComputeServerIndex`: each round reinitializes the
jump-hash key to `objectIndex`, computes a candidate, consults the predicate,
and on failure increments `objectIndex` and repeats. -/
def computeLoop {E : Type} (serverCount : Int) (pred : Pred E) :
    Nat → Int → RouteResult E
  | 0, _ => .fuelOut
  | fuel + 1, objectIndex =>
    match jumpLoop serverCount (serverCount.toNat + 1) (uint64ofInt objectIndex) 0 0 with
    | none => .fuelOut
    | some serverIndex =>
      let (ok, err) := pred serverIndex
      if ok || err.isSome then .ret serverIndex err
      else computeLoop serverCount pred fuel (objectIndex + 1)

/-- Embedding of `ComputeServerIndex(serverCount, objectIndex, predicate)`.
The modulo fast path is tried first; only on its failure does the fuel-bounded
jump-hash search run. Go panics with a division by zero when
`serverCount == 0` (no caller in the repository reaches that). -/
def computeServerIndex {E : Type} (fuel : Nat) (serverCount objectIndex : Int)
    (pred : Pred E) : RouteResult E :=
  if serverCount = 0 then .panicDivZero
  else
    let serverIndex := objectIndex.tmod serverCount
    let (ok, err) := pred serverIndex
    if ok || err.isSome then .ret serverIndex err
    else computeLoop serverCount pred fuel objectIndex

/-! ## Cluster construction (src/unnamed/part_001, lines 51-73 and 145-176) -/

/-- Modelled from the spec: `config.StorageServerConfig.Validate` is not part
of the provided sources (only its callers are). Per the configuration
contract and the repository's tests, a server config is valid when it either
has a non-empty address or is a permanently retired (`RIP`) slot. -/
def serverCfgValid (cfg : ServerCfg) : Bool :=
  cfg.address ≠ "" || cfg.state = .rip

/-- Modelled from the spec: `config.StorageClusterConfig.Validate` (missing
from the provided sources) validates each listed server config. -/
def clusterCfgValid (servers : List ServerCfg) : Bool :=
  servers.all serverCfgValid

/-- In-memory model of the static `Cluster` (its dialer is abstracted away;
dialing is recorded as an effect trace by the operations below). -/
structure GoCluster where
  servers : List ServerCfg
  serverCount : Int
  availableServerCount : Int
  deriving DecidableEq, Repr

/-- The state-scanning loop of `NewCluster`: starting from
`availableServerCount = serverCount`, each `Online` server is kept, any state
other than `Online`/`RIP` aborts with `ErrServerStateNotSupported`, and each
`RIP` server decrements the available count. -/
def scanServers : List ServerCfg → Int → Except GoErr Int
  | [], available => .ok available
  | server :: rest, available =>
    if server.state = .online then scanServers rest available
    else if server.state ≠ .rip then .error .serverStateNotSupported
    else scanServers rest (available - 1)

/-- Embedding of `NewCluster(cfg, dialer)`. -/
def NewCluster (servers : List ServerCfg) : Except GoErr GoCluster :=
  if ¬clusterCfgValid servers then .error .invalidConfig
  else
    match scanServers servers servers.length with
    | .error e => .error e
    | .ok availableServerCount =>
      if availableServerCount = 0 then .error .noServersAvailable
      else .ok { servers := servers
                 serverCount := servers.length
                 availableServerCount := availableServerCount }

/-- Embedding of `(*Cluster).ServerCount`: it returns the
`availableServerCount` field. -/
def GoCluster.ServerCount (cluster : GoCluster) : Int :=
  cluster.availableServerCount

/-- Embedding of `(*Cluster).serverOperational`: true iff the server at the
index is `Online` (the constructor guarantees every state is Online or RIP).
Go would panic on an out-of-range index; no reachable call does. -/
def GoCluster.serverOperational (cluster : GoCluster) : Pred GoErr :=
  fun index =>
    (decide ((cluster.servers.get? index.toNat).map ServerCfg.state = some .online), none)

/-- The number of `Online` servers in a config (used to state what
`availableServerCount` actually is). -/
def countOnline (servers : List ServerCfg) : Int :=
  ((servers.filter (fun s => s.state = .online)).length : Int)

/-- The number of `RIP` servers in a config. -/
def countRIP (servers : List ServerCfg) : Int :=
  ((servers.filter (fun s => s.state = .rip)).length : Int)

/-! ## `UniCluster.DoForAll` and `Cluster.DoForAll`
(src/unnamed/part_001, lines 103-122 and 228-327)

The per-server action semantics (dial + `action.Do(conn)` on a pipelined
`Commands` batch, which replies 1:1 per action) is abstracted as a pure
function `exec : serverIndex → action → reply`; each operation additionally
returns the list of server indices it dialed (in first-use order — the Go
code fans the batches out concurrently, so it fixes no order itself). -/

/-- Embedding of `(*UniCluster).DoForAll`. A `UniCluster` has exactly one
server; `dials` counts the connections dialed to it. Replies are `Option`
values because Go's reply slices hold `interface{}` values defaulting to
`nil`. -/
def uniDoForAll {Action Reply : Type} (exec : Action → Reply)
    (pairs : List (Int × Action)) : Except GoErr (List (Option Reply)) × Nat :=
  match pairs with
  | [] => (.ok [], 0)
  | [pair] =>
    -- DoFor(pairs[0].Index, pairs[0].Action) = Do(action): one dial
    (.ok [some (exec pair.2)], 1)
  | _ =>
    -- Values(Do(Commands(actions...))): one dial, replies align 1:1
    (.ok (pairs.map (fun pair => some (exec pair.2))), 1)

/-- Go's `IndexActionMap`: parallel slices of (input positions, actions). -/
structure IndexActionMap (Action : Type) where
  indices : List Int
  actions : List Action
  deriving Repr

/-- Embedding of `(*IndexActionMap).Add`: append both the index and the action. -/
def IndexActionMap.add {Action : Type} (m : IndexActionMap Action)
    (index : Int) (action : Action) : IndexActionMap Action :=
  { indices := m.indices ++ [index], actions := m.actions ++ [action] }

/-- Insert into the per-server map (`servers[serverIndex]`), keyed by server
index. Go iterates its map in unspecified order; the model keeps
first-insertion order (the final scatter step makes the order immaterial). -/
def mapInsert {Action : Type} (groups : List (Int × IndexActionMap Action))
    (serverIndex : Int) (index : Int) (action : Action) :
    List (Int × IndexActionMap Action) :=
  match groups with
  | [] => [(serverIndex, IndexActionMap.add ⟨[], []⟩ index action)]
  | (k, m) :: rest =>
    if k = serverIndex then (k, m.add index action) :: rest
    else (k, m) :: mapInsert rest serverIndex index action

/-- The routing/grouping loop of `(*Cluster).DoForAll`: route every pair with
`ComputeServerIndex` and add it (with its input position) to its server's
`IndexActionMap`, propagating the first routing error. -/
def groupPairs {Action : Type} (fuel : Nat) (cluster : GoCluster) :
    List (Int × Action) → Int →
    Except GoErr (List (Int × IndexActionMap Action)) →
    Except GoErr (List (Int × IndexActionMap Action))
  | [], _, acc => acc
  | (objectIndex, action) :: rest, position, acc => do
    let groups ← acc
    match computeServerIndex fuel cluster.serverCount objectIndex
        cluster.serverOperational with
    | .ret serverIndex none =>
      groupPairs fuel cluster rest (position + 1)
        (.ok (mapInsert groups serverIndex position action))
    | .ret _ (some e) => throw e
    | .panicDivZero => throw .panicDivisionByZero
    | .fuelOut => throw .modelFuelExhausted

/-- Scatter one server batch's replies back into the dense reply slice:
`replies[m.Indices[i]] = result.Replies[i]`. -/
def scatterReplies {Reply : Type} (replies : List (Option Reply)) :
    List Int → List Reply → List (Option Reply)
  | [], _ => replies
  | _, [] => replies
  | index :: idxRest, reply :: repRest =>
    scatterReplies (replies.set index.toNat (some reply)) idxRest repRest

/-- Embedding of `(*Cluster).DoForAll`.

The empty list returns `(nil, nil)` immediately; the single-pair shortcut
evaluates `pairs[1].Action` — an out-of-range access that panics at runtime
(the spec's design notes flag it as an off-by-one for `pairs[0]`); two or
more pairs are grouped per routed server, each group is executed as one
pipelined batch (`exec` applied per action), and replies are scattered back
by input position. -/
def clusterDoForAll {Action Reply : Type} (fuel : Nat) (cluster : GoCluster)
    (exec : Int → Action → Reply) (pairs : List (Int × Action)) :
    Except GoErr (List (Option Reply)) × List Int :=
  match pairs with
  | [] => (.ok [], [])
  | [_] =>
    -- Go: cluster.DoFor(pairs[0].Index, pairs[1].Action); pairs[1] is out of
    -- range when len(pairs) == 1, so the argument evaluation panics before
    -- any routing or dialing happens.
    (.error .panicIndexOutOfRange, [])
  | _ =>
    match groupPairs fuel cluster pairs 0 (.ok []) with
    | .error e => (.error e, [])
    | .ok groups =>
      match groups with
      | [(serverIndex, m)] =>
        -- single-server shortcut: the batch replies are returned directly
        (.ok (m.actions.map (fun action => some (exec serverIndex action))),
          [serverIndex])
      | _ =>
        let replies := groups.foldl
          (fun replies (group : Int × IndexActionMap Action) =>
            scatterReplies replies group.2.indices
              (group.2.actions.map (exec group.1)))
          (List.replicate pairs.length (none : Option Reply))
        (.ok replies, groups.map Prod.fst)

/-! ## `TemplateCluster` (src/unnamed/part_001, lines 870-917) -/

/-- The mutable state of the supervisor-backed `TemplateCluster` (the
watcher machinery that fills it in is out of scope; claims quantify over the
reachable states). -/
structure TemplateState where
  servers : List ServerCfg
  serverCount : Int
  deriving DecidableEq, Repr

/-- Embedding of `(*TemplateCluster).serverIsOnline`. -/
def TemplateState.serverIsOnline (tsc : TemplateState) : Pred GoErr :=
  fun index =>
    (decide ((tsc.servers.get? index.toNat).map ServerCfg.state = some .online), none)

/-- Embedding of `(*TemplateCluster).Do`: it returns
`(nil, ErrMethodNotSupported)` immediately, dialing nothing. -/
def templateDo {Action Reply : Type} (_tsc : TemplateState) (_action : Action) :
    Except GoErr Reply × List Int :=
  (.error .methodNotSupported, [])

/-- Embedding of `(*TemplateCluster).DoFor`: an undefined cluster
(`serverCount == 0`) fails with `ErrClusterNotDefined` before any routing;
otherwise the routed server is dialed and the action applied. -/
def templateDoFor {Action Reply : Type} (fuel : Nat) (tsc : TemplateState)
    (exec : Int → Action → Reply) (objectIndex : Int) (action : Action) :
    Except GoErr Reply × List Int :=
  if tsc.serverCount = 0 then (.error .clusterNotDefined, [])
  else
    match computeServerIndex fuel tsc.serverCount objectIndex
        tsc.serverIsOnline with
    | .ret serverIndex none => (.ok (exec serverIndex action), [serverIndex])
    | .ret _ (some e) => (.error e, [])
    | .panicDivZero => (.error .panicDivisionByZero, [])
    | .fuelOut => (.error .modelFuelExhausted, [])

/-! ## Inflation block fetcher
(src/nbd/ardb/backup/server_driver.go, part 2: `inflationBlockFetcher`,
lines 391-462 in the claims' numbering)

The wrapped source fetcher is embedded as the list of `(index, block)` pairs
it will yield before `io.EOF`. Every return path of `FetchBlock` clears the
cached output, so between top-level calls the cache is empty and a call is a
function of the remaining input alone. -/

/-- A `blockIndexPair`: a block (byte list) plus its index. -/
structure BlockIndexPair where
  block : List Nat
  index : Int
  deriving DecidableEq, Repr

/-- Go `copy(output[offset:offset+srcBS], block)`: overwrite
`min srcBS block.length` bytes of `output` starting at `offset`. (Go would
panic if `offset+srcBS` exceeded the output's length; with
`srcBS ∣ dstBS` — which every caller guarantees — that cannot happen.) -/
def copyAt (output : List Nat) (offset : Int) (block : List Nat)
    (srcBS : Int) : List Nat :=
  let n := min srcBS.toNat block.length
  output.take offset.toNat ++ (block.take n) ++ output.drop (offset.toNat + n)

/-- The fill loop of `inflationBlockFetcher.FetchBlock`
(`for ibf.cache.offset < ibf.dstBS { ... }`); returns the emitted destination
pair and the not-yet-consumed source pairs. Note the flush branch: when a
source-index gap pushes the offset past `dstBS`, the freshly fetched source
block is discarded together with the loop — exactly as in the Go code. -/
def inflateLoop (srcBS dstBS ratio : Int) :
    List BlockIndexPair → List Nat → Int → Int →
    BlockIndexPair × List BlockIndexPair
  | input, output, offset, prevIndex =>
    if dstBS ≤ offset then
      (⟨output, prevIndex.tdiv ratio⟩, input)
    else
      match input with
      | [] =>
        -- io.EOF: the rest of the destination block stays zero
        (⟨output, prevIndex.tdiv ratio⟩, [])
      | pair :: rest =>
        let indexDelta := pair.index - prevIndex
        if 0 ≤ prevIndex ∧ 1 < indexDelta then
          let offset' := offset + (indexDelta - 1) * srcBS
          if dstBS ≤ offset' then
            (⟨output, prevIndex.tdiv ratio⟩, rest)
          else
            inflateLoop srcBS dstBS ratio rest
              (copyAt output offset' pair.block srcBS)
              (offset' + srcBS) pair.index
        else
          inflateLoop srcBS dstBS ratio rest
            (copyAt output offset pair.block srcBS)
            (offset + srcBS) pair.index

/-- Embedding of `inflationBlockFetcher.FetchBlock`: `none` is `io.EOF`;
otherwise the produced destination pair plus the remaining source pairs. -/
def inflateFetch (srcBS dstBS ratio : Int) (input : List BlockIndexPair) :
    Option (BlockIndexPair × List BlockIndexPair) :=
  match input with
  | [] => none
  | pair :: rest =>
    let output := List.replicate dstBS.toNat 0
    let offset := (pair.index.tmod ratio) * srcBS
    let output := copyAt output offset pair.block srcBS
    some (inflateLoop srcBS dstBS ratio rest output (offset + srcBS) pair.index)

/-- Drain the inflation fetcher: call `FetchBlock` until `io.EOF`, collecting
every destination pair. The fuel bounds the number of calls (each successful
call consumes at least one source pair, so `input.length + 1` always
suffices). -/
def runInflate (srcBS dstBS ratio : Int) :
    Nat → List BlockIndexPair → List BlockIndexPair
  | 0, _ => []
  | fuel + 1, input =>
    match inflateFetch srcBS dstBS ratio input with
    | none => []
    | some (pair, rest) => pair :: runInflate srcBS dstBS ratio fuel rest

/-! ## Backup server driver: hash paths and the FTP store
(src/nbd/ardb/backup/server_driver.go, lines 59-71, 161-194)

Modelled from the spec: `zerodisk.HashSize` lives outside the provided
sources; per the data model a hash is a fixed 32-byte digest. -/

/-- Modelled from the spec: `zerodisk.HashSize` is not under the provided sources; the data model fixes 32-byte digests. -/
def HashSize : Nat := 32

/-- ASCII `/`, the path separator byte. -/
def slashByte : Nat := 47

/-- Embedding of `hashAsDirAndFile(hash)`: for a 32-byte hash it splits the
RAW hash bytes as `dir = hash[:2] + "/" + hash[2:4]`, `file = hash[4:]`
(Go's `string(...)` conversion keeps the bytes as they are); any other
length yields `ok == false` (`none` here). -/
def hashAsDirAndFile (hash : List Nat) : Option (List Nat × List Nat) :=
  if hash.length ≠ HashSize then none
  else
    some (hash.take 2 ++ slashByte :: ((hash.drop 2).take 2), hash.drop 4)

/-- The spec's claimed path scheme, stated from the spec's words for
comparison with `hashAsDirAndFile`: `hh` is the lowercase hexadecimal
encoding of the hash and the path pieces are `hh[0..2]`, `hh[2..4]`,
`hh[4..]`. -/
def hexDigit (n : Nat) : Nat :=
  if n < 10 then 48 + n else 87 + n

/-- Lowercase hex encoding of a byte list (two ASCII bytes per input byte). -/
def hexEncode (bytes : List Nat) : List Nat :=
  bytes.flatMap (fun b => [hexDigit (b / 16), hexDigit (b % 16)])

/-- The directory component the spec's sentence describes:
`hh[0..2] + "/" + hh[2..4]` over the hex encoding `hh`. -/
def specHexDir (hash : List Nat) : List Nat :=
  (hexEncode hash).take 2 ++ slashByte :: (((hexEncode hash).drop 2).take 2)

/-- An entry on the modelled FTP server: a regular file or a directory. -/
inductive FTPEntry where
  | file (content : List Nat)
  | dir
  deriving DecidableEq, Repr

/-- The modelled FTP server filesystem: an association list from full path
(byte string) to entry. -/
structure FTPState where
  entries : List (List Nat × FTPEntry)
  deriving DecidableEq, Repr

/-- Errors of the modelled FTP driver. -/
inductive FTPErr where
  | invalidHash
  | existsAsDir
  | retrieveFailed
  deriving DecidableEq, Repr

/-- Embedding of `ftp.client.Stat(path)`: `none` models goftp's 550 "no such file" error,
`some` an existing entry. -/
def statFS (fs : FTPState) (path : List Nat) : Option FTPEntry :=
  (fs.entries.find? (fun entry => entry.1 = path)).map Prod.snd

/-- Embedding of `ftp.client.Store(path, r)` at a fresh path. -/
def storeFS (fs : FTPState) (path : List Nat) (content : List Nat) : FTPState :=
  { entries := (path, .file content) :: fs.entries }

/-- Embedding of `ftp.client.Mkdir(path)` (the returned cleaned path equals the input for
the already-clean paths this model builds). -/
def mkdirFS (fs : FTPState) (path : List Nat) : FTPState :=
  { entries := (path, .dir) :: fs.entries }

/-- Embedding of `(*ftpDriver).lazyStore(path, r)`: stat the path; on 550
store the reader's content; on success demand a regular file (a directory is
an error) and otherwise do nothing. -/
def lazyStore (fs : FTPState) (path : List Nat) (content : List Nat) :
    Except FTPErr FTPState :=
  match statFS fs path with
  | none => .ok (storeFS fs path content)
  | some (.file _) => .ok fs
  | some .dir => .error .existsAsDir

/-- Go `path.Join(a, b)` for the already-clean paths that this driver
builds: the empty path is the identity, otherwise the pieces are joined with
one separator. -/
def pathJoin (a b : List Nat) : List Nat :=
  if a = [] then b else a ++ slashByte :: b

/-- Embedding of `strings.Split(path, "/")`. -/
def splitOnSlash (path : List Nat) : List (List Nat) :=
  path.foldr
    (fun byte pieces =>
      match pieces with
      | [] => if byte = slashByte then [[], []] else [[byte]]
      | piece :: rest =>
        if byte = slashByte then [] :: piece :: rest
        else (byte :: piece) :: rest)
    [[]]

/-- The state of an `ftpDriver`: its root, its `knownDirs` cache, and the
remote filesystem it talks to. -/
structure FTPDriver where
  root : List Nat
  knownDirs : List (List Nat)
  fs : FTPState
  deriving DecidableEq, Repr

/-- The per-level walk of `(*ftpDriver).mkdirs`: join the level onto `pwd`,
skip levels cached in `knownDirs`, create missing ones (Go does not cache a
directory it just created), reject levels that exist as plain files, and
cache levels that already existed as directories. -/
def mkdirsWalk : FTPDriver → List Nat → List (List Nat) →
    Except FTPErr (FTPDriver × List Nat)
  | drv, pwd, [] => .ok (drv, pwd)
  | drv, pwd, level :: rest =>
    let pwd := pathJoin pwd level
    if pwd ∈ drv.knownDirs then mkdirsWalk drv pwd rest
    else
      match statFS drv.fs pwd with
      | none => mkdirsWalk { drv with fs := mkdirFS drv.fs pwd } pwd rest
      | some (.file _) => .error .existsAsDir
      | some .dir =>
        mkdirsWalk { drv with knownDirs := pwd :: drv.knownDirs } pwd rest

/-- Embedding of `(*ftpDriver).mkdirs(dir)`: prefix the driver root, take the
`knownDirs` shortcut when possible, otherwise walk the levels. -/
def mkdirs (drv : FTPDriver) (dir : List Nat) :
    Except FTPErr (FTPDriver × List Nat) :=
  let dir := pathJoin drv.root dir
  if dir ∈ drv.knownDirs then .ok (drv, dir)
  else mkdirsWalk drv [] (splitOnSlash dir)

/-- Embedding of `(*ftpDriver).SetDedupedBlock(hash, r)`: reject hashes that
are not exactly 32 bytes with `errInvalidHash`, create the two directory
levels, then lazily store the block. -/
def setDedupedBlock (drv : FTPDriver) (hash : List Nat) (content : List Nat) :
    Except FTPErr FTPDriver :=
  match hashAsDirAndFile hash with
  | none => .error .invalidHash
  | some (dir, file) => do
    let (drv, dir) ← mkdirs drv dir
    let fs ← lazyStore drv.fs (pathJoin dir file) content
    return { drv with fs := fs }

/-- Embedding of `(*ftpDriver).GetDedupedBlock(hash, w)`: reject hashes that
are not exactly 32 bytes with `errInvalidHash`, otherwise retrieve
`path.Join(dir, file)` (note: the driver root is not joined here). -/
def getDedupedBlock (drv : FTPDriver) (hash : List Nat) :
    Except FTPErr (List Nat) :=
  match hashAsDirAndFile hash with
  | none => .error .invalidHash
  | some (dir, file) =>
    match statFS drv.fs (pathJoin dir file) with
    | some (.file content) => .ok content
    | _ => .error .retrieveFailed

/-! ## LBA shard serialization (src/unnamed/part_002) -/

/-- The constant `NumberOfRecordsPerLBAShard`: the fixed slot count of an LBA shard. -/
def NumberOfRecordsPerLBAShard : Nat := 128

/-- The constant `BytesPerShard = NumberOfRecordsPerLBAShard * HashSize`. -/
def BytesPerShard : Nat := NumberOfRecordsPerLBAShard * HashSize

/-- The value `nilHash`: the reserved all-zero 32-byte hash. -/
def nilHash : List Nat := List.replicate HashSize 0

/-- A shard's slot array: each slot is Go-`nil` (`none`) or a stored hash
value (`some`). (`shardFromBytes` normalizes slots equal to `nilHash` to
Go-`nil`; `Set` stores whatever hash value it is handed.) -/
def ShardSlots : Type := List (Option (List Nat))

/-- The first scanning loop of `(*shard).Write`: the index of the first slot
that is not Go-`nil` (equals the slot count when every slot is nil). -/
def firstNonNil : ShardSlots → Nat
  | [] => 0
  | none :: rest => firstNonNil rest + 1
  | some _ :: _ => 0

/-- Serialize slots from some index on: a Go-`nil` slot becomes `nilHash`,
a stored hash is written as-is. -/
def writeSlots (slots : ShardSlots) : List Nat :=
  (slots.map (fun slot => slot.getD nilHash)).flatten

/-- Embedding of `(*shard).Write`: scan for the first non-Go-`nil` slot; if
there is none, fail with `errNilShardWrite` (nothing written); otherwise
write `nilHash` for every leading nil slot and then each remaining slot
(substituting `nilHash` for nil slots). -/
def shardWrite (slots : ShardSlots) : Except Unit (List Nat) :=
  let index := firstNonNil slots
  if index = NumberOfRecordsPerLBAShard then .error ()
  else
    .ok ((List.replicate index nilHash).flatten ++ writeSlots (slots.drop index))

/-! # Theorems -/

/-- Whatever `scanServers` accepts satisfies
`result = start - (length - countOnline)`: every non-`Online` server it does
not reject is `RIP` and decrements the count. -/
theorem scanServers_ok (servers : List ServerCfg) :
    ∀ (start result : Int), scanServers servers start = .ok result →
      result = start - servers.length + countOnline servers := by
  induction servers with
  | nil =>
    intro start result h
    simp only [scanServers] at h
    cases h
    simp [countOnline]
  | cons server rest ih =>
    intro start result h
    simp only [scanServers] at h
    by_cases honline : server.state = .online
    · have hres := ih start result (by simpa [honline] using h)
      have hcount : countOnline (server :: rest) = countOnline rest + 1 := by
        simp [countOnline, List.filter_cons, honline]
      rw [hcount, List.length_cons]
      push_cast
      omega
    · by_cases hrip : server.state = .rip
      · have hres := ih (start - 1) result (by simpa [honline, hrip] using h)
        have hcount : countOnline (server :: rest) = countOnline rest := by
          simp [countOnline, List.filter_cons, honline]
        rw [hcount, List.length_cons]
        push_cast
        omega
      · simp [honline, hrip] at h

/-- C3 (counterexample): for the two-server config `[Online, RIP]`,
`NewCluster` succeeds and `ServerCount()` returns `1`, although the number of
`Online` servers plus the number of `RIP` servers is `2` — `RIP` servers are
not counted as available, contradicting the claim. -/
theorem newCluster_serverCount_counterexample :
    (NewCluster [⟨"a", 0, .online⟩, ⟨"", 0, .rip⟩]).map GoCluster.ServerCount
        = .ok 1 ∧
      countOnline [⟨"a", 0, .online⟩, ⟨"", 0, .rip⟩]
          + countRIP [⟨"a", 0, .online⟩, ⟨"", 0, .rip⟩] = 2 := by
  constructor
  · rfl
  · rfl

/-- C3 (amended): for every cluster config accepted by `NewCluster`, the
cluster's `availableServerCount` — the value returned by `ServerCount()` —
equals the number of servers whose state is `Online`; `RIP` servers are
counted in `serverCount` but not in `availableServerCount`. -/
theorem newCluster_serverCount_eq_countOnline (servers : List ServerCfg)
    (cluster : GoCluster) (h : NewCluster servers = .ok cluster) :
    cluster.ServerCount = countOnline servers := by
  unfold NewCluster at h
  by_cases hvalid : clusterCfgValid servers
  · simp only [hvalid, not_true, if_false] at h
    cases hscan : scanServers servers servers.length with
    | error e => rw [hscan] at h; cases h
    | ok available =>
      rw [hscan] at h
      by_cases hzero : available = 0
      · simp [hzero] at h
      · simp only [hzero, if_false] at h
        cases h
        have := scanServers_ok servers servers.length available hscan
        simp only [GoCluster.ServerCount]
        omega
  · simp [hvalid] at h

/-- C3 (witness for the amended theorem): instantiating it on the concrete
accepted config `[Online, RIP]` yields `ServerCount() = 1` = its number of
`Online` servers. -/
theorem newCluster_serverCount_eq_countOnline_witness :
    ({ servers := [⟨"a", 0, .online⟩, ⟨"", 0, .rip⟩],
       serverCount := 2, availableServerCount := 1 } : GoCluster).ServerCount
      = countOnline [⟨"a", 0, .online⟩, ⟨"", 0, .rip⟩] :=
  newCluster_serverCount_eq_countOnline
    [⟨"a", 0, .online⟩, ⟨"", 0, .rip⟩]
    { servers := [⟨"a", 0, .online⟩, ⟨"", 0, .rip⟩],
      serverCount := 2, availableServerCount := 1 }
    (by rfl)

/-- C5: for every `serverCount ≥ 1` and `objectIndex ≥ 0`, with a predicate
that returns `(true, nil)` for every index, `ComputeServerIndex` returns
`objectIndex mod serverCount` with no error (the modulo fast path, taken
before any jump-hash round). -/
theorem computeServerIndex_allTrue (fuel : Nat) (serverCount objectIndex : Int)
    (hN : 1 ≤ serverCount) (hx : 0 ≤ objectIndex) :
    @computeServerIndex GoErr fuel serverCount objectIndex
        (fun _ => (true, none))
      = .ret (objectIndex % serverCount) none := by
  have hN0 : ¬serverCount = 0 := by omega
  have htmod : objectIndex.tmod serverCount = objectIndex % serverCount :=
    Int.tmod_eq_emod hx (by omega)
  simp [computeServerIndex, hN0, htmod]

/-- C5 (witness): `ComputeServerIndex(3, 7, alwaysTrue) = 7 mod 3 = 1`. -/
theorem computeServerIndex_allTrue_witness :
    @computeServerIndex GoErr 0 3 7 (fun _ => (true, none))
      = .ret 1 none := by
  have h := computeServerIndex_allTrue 0 3 7 (by decide) (by decide)
  simpa using h

/-- C1: `Cluster.DoForAll` with a single-element pair list evaluates
`pairs[1].Action`, an out-of-range index — a Go runtime panic — instead of
returning the one reply for `pairs[0].Action`; with two or more pairs the
dense, input-ordered reply vector is produced as the claim describes
(evaluated here on a one-`Online`-server cluster). -/
theorem clusterDoForAll_single_pair_panics :
    clusterDoForAll 1 ⟨[⟨"a", 0, .online⟩], 1, 1⟩
        (fun serverIndex action => (serverIndex, action))
        [((0 : Int), (5 : Nat))]
      = (.error .panicIndexOutOfRange, []) ∧
    clusterDoForAll 1 ⟨[⟨"a", 0, .online⟩], 1, 1⟩
        (fun serverIndex action => (serverIndex, action))
        [((0 : Int), (5 : Nat)), ((1 : Int), (7 : Nat))]
      = (.ok [some ((0 : Int), (5 : Nat)), some ((0 : Int), (7 : Nat))], [0]) := by
  constructor
  · rfl
  · rfl

/-- C8: the supervisor-backed `TemplateCluster.Do` fails with
`ErrMethodNotSupported` for every action without contacting any server, and
`TemplateCluster.DoFor` on a template cluster whose `serverCount` is zero
fails with `ErrClusterNotDefined` (also before contacting any server). -/
theorem templateCluster_do_unsupported_doFor_undefined
    {Action Reply : Type} (fuel : Nat) (tsc : TemplateState)
    (exec : Int → Action → Reply) (objectIndex : Int) (action : Action) :
    @templateDo Action Reply tsc action = (.error .methodNotSupported, []) ∧
      (tsc.serverCount = 0 →
        templateDoFor fuel tsc exec objectIndex action
          = (.error .clusterNotDefined, [])) := by
  refine ⟨rfl, fun hzero => ?_⟩
  simp [templateDoFor, hzero]

/-- C8 (witness): on the empty template-cluster state, `Do` is unsupported
and `DoFor 7` reports the cluster as not defined. -/
theorem templateCluster_witness :
    @templateDo Nat Nat (⟨[], 0⟩ : TemplateState) (3 : Nat)
        = (.error .methodNotSupported, []) ∧
      templateDoFor 5 (⟨[], 0⟩ : TemplateState) (fun _ (a : Nat) => a) 7 3
        = (.error .clusterNotDefined, []) := by
  have h := @templateCluster_do_unsupported_doFor_undefined
    Nat Nat 5 (⟨[], 0⟩ : TemplateState)
    (fun _ a => a) 7 3
  exact ⟨h.1, h.2 rfl⟩

/-- C2 (counterexample): for the source stream `(0, A), (1, B), (3, C)` with
4-byte source blocks and 16-byte destination blocks, the inflation block
fetcher does NOT produce the two claimed destination blocks
`(0, A‖B‖0‖0)` and `(0, 0‖0‖0‖C)` (here with `A = [10..13]`,
`B = [20..23]`, `C = [30..33]`). -/
theorem inflation_4_16_counterexample :
    runInflate 4 16 4 10
        [⟨[10, 11, 12, 13], 0⟩, ⟨[20, 21, 22, 23], 1⟩, ⟨[30, 31, 32, 33], 3⟩]
      ≠ [⟨[10, 11, 12, 13, 20, 21, 22, 23, 0, 0, 0, 0, 0, 0, 0, 0], 0⟩,
          ⟨[0, 0, 0, 0, 0, 0, 0, 0, 0, 0, 0, 0, 30, 31, 32, 33], 0⟩] := by
  decide

/-- C2 (amended): source index 3 still falls inside destination span 0
(`3 / 4 = 0`), so the index gap only advances the write offset: the fetcher
produces the SINGLE destination block `(0, A‖B‖0‖C)` (16 bytes, the gap
region zero) and then signals end of stream. -/
theorem inflation_4_16_single_block :
    inflateFetch 4 16 4
        [⟨[10, 11, 12, 13], 0⟩, ⟨[20, 21, 22, 23], 1⟩, ⟨[30, 31, 32, 33], 3⟩]
      = some
          (⟨[10, 11, 12, 13, 20, 21, 22, 23, 0, 0, 0, 0, 30, 31, 32, 33], 0⟩,
            []) ∧
      inflateFetch 4 16 4 [] = none ∧
      runInflate 4 16 4 10
          [⟨[10, 11, 12, 13], 0⟩, ⟨[20, 21, 22, 23], 1⟩, ⟨[30, 31, 32, 33], 3⟩]
        = [⟨[10, 11, 12, 13, 20, 21, 22, 23, 0, 0, 0, 0, 30, 31, 32, 33], 0⟩] := by
  refine ⟨by decide, rfl, by decide⟩

/-- C4 (counterexample): for the 32-byte hash consisting of the byte `0xab`
(171) throughout, the lowercase-hex path of the claim would be
`"ab/ab"` (`[97, 98, 47, 97, 98]`), but `hashAsDirAndFile` builds the
directory from the RAW hash bytes: `[171, 171, 47, 171, 171]`. -/
theorem hashPath_not_hex_counterexample :
    (hashAsDirAndFile (List.replicate 32 171)).map Prod.fst
        ≠ some (specHexDir (List.replicate 32 171)) ∧
      specHexDir (List.replicate 32 171) = [97, 98, 47, 97, 98] ∧
      (hashAsDirAndFile (List.replicate 32 171)).map Prod.fst
        = some [171, 171, 47, 171, 171] := by
  decide

/-- C4 (amended): for every 32-byte hash `h`, the backup store path of its
block is `dir/file` with `dir = h[0..2] + "/" + h[2..4]` and
`file = h[4..]` taken over the RAW hash bytes (no hexadecimal encoding);
a hash whose length is not exactly 32 bytes is rejected:
`SetDedupedBlock` and `GetDedupedBlock` fail with `errInvalidHash`. -/
theorem hashAsDirAndFile_raw_bytes (hash : List Nat) :
    (hash.length = HashSize →
        hashAsDirAndFile hash
          = some (hash.take 2 ++ slashByte :: (hash.drop 2).take 2,
              hash.drop 4)) ∧
      (hash.length ≠ HashSize →
        hashAsDirAndFile hash = none ∧
          (∀ drv content,
            setDedupedBlock drv hash content = .error .invalidHash) ∧
          (∀ drv, getDedupedBlock drv hash = .error .invalidHash)) := by
  constructor
  · intro hlen
    simp [hashAsDirAndFile, hlen]
  · intro hlen
    refine ⟨by simp [hashAsDirAndFile, hlen], fun drv content => ?_, fun drv => ?_⟩
    · simp [setDedupedBlock, hashAsDirAndFile, hlen]
    · simp [getDedupedBlock, hashAsDirAndFile, hlen]

/-- C4 (witness for the amended theorem): a valid 32-byte hash is split into
raw-byte path pieces, and a 3-byte hash makes `SetDedupedBlock` fail with
`errInvalidHash`. -/
theorem hashAsDirAndFile_raw_bytes_witness :
    hashAsDirAndFile (List.replicate 32 7)
        = some ((List.replicate 32 7).take 2
              ++ slashByte :: ((List.replicate 32 7).drop 2).take 2,
            (List.replicate 32 7).drop 4) ∧
      setDedupedBlock ⟨[], [], ⟨[]⟩⟩ [1, 2, 3] [9] = .error .invalidHash :=
  ⟨(hashAsDirAndFile_raw_bytes (List.replicate 32 7)).1 (by decide),
    ((hashAsDirAndFile_raw_bytes [1, 2, 3]).2 (by decide)).2.1 ⟨[], [], ⟨[]⟩⟩ [9]⟩

/-- The scan index never passes the slot count. -/
theorem firstNonNil_le_length (slots : List (Option (List Nat))) :
    firstNonNil slots ≤ slots.length := by
  induction slots with
  | nil => simp [firstNonNil]
  | cons slot rest ih =>
    cases slot with
    | none => simpa [firstNonNil] using ih
    | some h => simp [firstNonNil]

/-- When every slot is Go-`nil`, the scan runs to the end. -/
theorem firstNonNil_eq_length_of_all_none (slots : List (Option (List Nat)))
    (h : slots.all Option.isNone = true) : firstNonNil slots = slots.length := by
  induction slots with
  | nil => simp [firstNonNil]
  | cons slot rest ih =>
    cases slot with
    | none =>
      simp only [List.all_cons, Bool.and_eq_true] at h
      simp [firstNonNil, ih h.2]
    | some hh => simp at h

/-- When some slot is not Go-`nil`, the scan stops strictly early. -/
theorem firstNonNil_lt_length_of_not_all_none (slots : List (Option (List Nat)))
    (h : slots.all Option.isNone = false) : firstNonNil slots < slots.length := by
  induction slots with
  | nil => simp at h
  | cons slot rest ih =>
    cases slot with
    | none =>
      simp only [List.all_cons, Option.isNone_none, Bool.true_and] at h
      simpa [firstNonNil] using ih h
    | some hh => simp [firstNonNil]

/-- Writing `nilHash` for the leading Go-`nil` slots and serializing the rest
is the same as serializing every slot with `nilHash` substitution. -/
theorem writeSlots_split (slots : List (Option (List Nat))) :
    (List.replicate (firstNonNil slots) nilHash).flatten
        ++ writeSlots (slots.drop (firstNonNil slots))
      = writeSlots slots := by
  induction slots with
  | nil => simp [firstNonNil]
  | cons slot rest ih =>
    cases slot with
    | none =>
      simp only [firstNonNil, List.replicate_succ, List.flatten_cons,
        List.drop_succ_cons, List.append_assoc]
      rw [ih]
      simp [writeSlots]
    | some h => simp [firstNonNil]

/-- Each serialized slot contributes exactly `HashSize` bytes. -/
theorem writeSlots_length (slots : List (Option (List Nat)))
    (hsize : slots.all
        (fun slot => (slot.getD nilHash).length == HashSize) = true) :
    (writeSlots slots).length = slots.length * HashSize := by
  induction slots with
  | nil => simp [writeSlots]
  | cons slot rest ih =>
    simp only [List.all_cons, Bool.and_eq_true, beq_iff_eq] at hsize
    have hstep : writeSlots (slot :: rest) = slot.getD nilHash ++ writeSlots rest := rfl
    rw [hstep, List.length_append, hsize.1, ih hsize.2, List.length_cons]
    ring

/-- Flattening `n` copies of an `m`-replicate is an `n * m`-replicate. -/
theorem flatten_replicate_replicate {α : Type} (n m : Nat) (a : α) :
    (List.replicate n (List.replicate m a)).flatten = List.replicate (n * m) a := by
  induction n with
  | zero => simp
  | succ k ih =>
    rw [List.replicate_succ, List.flatten_cons, ih, ← List.replicate_add,
      Nat.succ_mul, Nat.add_comm]

/-- C7 (counterexample): a shard whose 128 slots are all nil-or-`nilHash`
need not fail `Write`: if slot 0 holds an explicitly stored `nilHash` value
(a non-Go-`nil` all-zero hash, as `Set(0, nilHash)` produces), the nil-slice
scan stops at slot 0 and `Write` succeeds, emitting 4096 zero bytes instead
of failing with `NilShardWrite`. -/
theorem shardWrite_explicit_nilHash_counterexample :
    (some nilHash :: List.replicate 127 (none : Option (List Nat))).all
        (fun slot => slot == none || slot == some nilHash) = true ∧
      shardWrite (some nilHash :: List.replicate 127 (none : Option (List Nat)))
        = .ok (List.replicate 4096 0) := by
  refine ⟨by decide, ?_⟩
  have hflat : (List.replicate 127 (List.replicate 32 (0 : Nat))).flatten
      = List.replicate 4064 0 := by
    rw [flatten_replicate_replicate]
  simp only [shardWrite, firstNonNil, NumberOfRecordsPerLBAShard, writeSlots,
    nilHash, HashSize, List.drop_zero, List.map_cons, List.map_replicate,
    Option.getD_some, Option.getD_none, List.flatten_cons, List.replicate_zero,
    List.flatten_nil, List.nil_append, hflat]
  norm_num [← List.replicate_add]

/-- C7 (amended): for every shard whose slot hashes are `HashSize` bytes,
`Write` fails with the `NilShardWrite` error (writing no bytes) exactly when
all 128 slots are Go-`nil`; otherwise — including when the only stored values
are explicit `nilHash` hashes — `Write` succeeds and emits exactly
`BytesPerShard = 4096` bytes, the concatenation in slot order of the slot
hashes with `nilHash` substituted for every Go-`nil` slot. -/
theorem shardWrite_spec (slots : List (Option (List Nat)))
    (hlen : slots.length = NumberOfRecordsPerLBAShard)
    (hsize : slots.all
        (fun slot => (slot.getD nilHash).length == HashSize) = true) :
    (slots.all Option.isNone = true → shardWrite slots = .error ()) ∧
      (slots.all Option.isNone = false →
        shardWrite slots = .ok (writeSlots slots) ∧
          (writeSlots slots).length = BytesPerShard) := by
  constructor
  · intro hall
    have : firstNonNil slots = NumberOfRecordsPerLBAShard := by
      rw [firstNonNil_eq_length_of_all_none slots hall, hlen]
    simp [shardWrite, this]
  · intro hnot
    have hlt : firstNonNil slots < NumberOfRecordsPerLBAShard := by
      rw [← hlen]
      exact firstNonNil_lt_length_of_not_all_none slots hnot
    constructor
    · simp only [shardWrite, Nat.ne_of_lt hlt, if_false]
      rw [writeSlots_split]
    · rw [writeSlots_length slots hsize, hlen]
      rfl

set_option maxRecDepth 4096 in
/-- C7 (witness for the amended theorem): a shard holding one 32-byte hash in
slot 0 (all other slots nil) serializes to exactly 4096 bytes. -/
theorem shardWrite_spec_witness :
    shardWrite
        (some (List.replicate 32 7) :: List.replicate 127 (none : Option (List Nat)))
        = .ok (writeSlots
            (some (List.replicate 32 7)
              :: List.replicate 127 (none : Option (List Nat)))) ∧
      (writeSlots
          (some (List.replicate 32 7)
            :: List.replicate 127 (none : Option (List Nat)))).length
        = BytesPerShard :=
  (shardWrite_spec
      (some (List.replicate 32 7) :: List.replicate 127 (none : Option (List Nat)))
      (by decide) (by decide)).2 (by decide)

/-- Unfolding `statFS` over a one-entry extension of the filesystem. -/
theorem statFS_cons (entries : List (List Nat × FTPEntry)) (q : List Nat)
    (e : FTPEntry) (p : List Nat) :
    statFS ⟨(q, e) :: entries⟩ p
      = if q = p then some e else statFS ⟨entries⟩ p := by
  by_cases h : q = p <;> simp [statFS, List.find?_cons, h]

/-- A successful `lazyStore` keeps every existing file entry unchanged. -/
theorem lazyStore_preserves_files (fs : FTPState) (path content : List Nat)
    (fs' : FTPState) (h : lazyStore fs path content = .ok fs') :
    ∀ p c, statFS fs p = some (.file c) → statFS fs' p = some (.file c) := by
  intro p c hp
  unfold lazyStore at h
  cases hstat : statFS fs path with
  | none =>
    rw [hstat] at h
    cases h
    have hne : path ≠ p := by
      intro he
      rw [he, hp] at hstat
      cases hstat
    show statFS ⟨(path, .file content) :: fs.entries⟩ p = some (.file c)
    rw [statFS_cons]
    simpa [hne] using hp
  | some entry =>
    rw [hstat] at h
    cases entry with
    | file c0 => cases h; exact hp
    | dir => cases h

/-- The directory walk of `mkdirs` creates directories only at paths that do
not exist yet, so every existing file entry survives it. -/
theorem mkdirsWalk_preserves_files (levels : List (List Nat)) :
    ∀ (drv : FTPDriver) (pwd : List Nat) (drv' : FTPDriver) (out : List Nat),
      mkdirsWalk drv pwd levels = .ok (drv', out) →
      ∀ p c, statFS drv.fs p = some (.file c) → statFS drv'.fs p = some (.file c) := by
  induction levels with
  | nil =>
    intro drv pwd drv' out h p c hp
    simp only [mkdirsWalk] at h
    cases h
    exact hp
  | cons level rest ih =>
    intro drv pwd drv' out h p c hp
    simp only [mkdirsWalk] at h
    by_cases hknown : pathJoin pwd level ∈ drv.knownDirs
    · exact ih drv (pathJoin pwd level) drv' out (by simpa [hknown] using h) p c hp
    · cases hstat : statFS drv.fs (pathJoin pwd level) with
      | none =>
        refine ih _ (pathJoin pwd level) drv' out (by simpa [hknown, hstat] using h)
          p c ?_
        have hne : pathJoin pwd level ≠ p := by
          intro he
          rw [he, hp] at hstat
          cases hstat
        show statFS ⟨(pathJoin pwd level, .dir) :: drv.fs.entries⟩ p
          = some (.file c)
        rw [statFS_cons]
        simpa [hne] using hp
      | some entry =>
        cases entry with
        | file c0 => simp [hknown, hstat] at h
        | dir =>
          exact ih
            { drv with knownDirs := pathJoin pwd level :: drv.knownDirs }
            (pathJoin pwd level) drv' out
            (by simpa [hknown, hstat] using h) p c hp

/-- The full `mkdirs` call preserves every existing file entry. -/
theorem mkdirs_preserves_files (drv : FTPDriver) (dir : List Nat)
    (drv' : FTPDriver) (out : List Nat) (h : mkdirs drv dir = .ok (drv', out)) :
    ∀ p c, statFS drv.fs p = some (.file c) → statFS drv'.fs p = some (.file c) := by
  intro p c hp
  unfold mkdirs at h
  by_cases hknown : pathJoin drv.root dir ∈ drv.knownDirs
  · simp only [hknown, if_true] at h
    cases h
    exact hp
  · exact mkdirsWalk_preserves_files _ drv [] drv' out
      (by simpa [hknown] using h) p c hp

/-- A successful `SetDedupedBlock` preserves every existing file entry. -/
theorem setDedupedBlock_preserves_files (drv : FTPDriver)
    (hash content : List Nat) (drv' : FTPDriver)
    (h : setDedupedBlock drv hash content = .ok drv') :
    ∀ p c, statFS drv.fs p = some (.file c) → statFS drv'.fs p = some (.file c) := by
  intro p c hp
  unfold setDedupedBlock at h
  cases hsplit : hashAsDirAndFile hash with
  | none => rw [hsplit] at h; cases h
  | some df =>
    obtain ⟨dir, file⟩ := df
    rw [hsplit] at h
    simp only [bind, Except.bind] at h
    cases hmk : mkdirs drv dir with
    | error e => rw [hmk] at h; cases h
    | ok res =>
      obtain ⟨drv1, d⟩ := res
      rw [hmk] at h
      dsimp only at h
      cases hls : lazyStore drv1.fs (pathJoin d file) content with
      | error e => rw [hls] at h; cases h
      | ok fs' =>
        rw [hls] at h
        cases h
        exact lazyStore_preserves_files drv1.fs (pathJoin d file) content fs' hls
          p c (mkdirs_preserves_files drv dir drv1 d hmk p c hp)

/-- C10: the backup store never overwrites existing content. For every
filesystem state and target path, `lazyStore` (the storing step of
`ftpDriver.SetDedupedBlock`): returns success without storing anything when
the path already exists as a regular file; uploads the content exactly when
the path does not exist yet; and fails when the path exists as a directory.
Consequently a successful `SetDedupedBlock` leaves every pre-existing file
entry (in particular every previously stored block) intact. -/
theorem lazyStore_never_overwrites (fs : FTPState) (path content : List Nat) :
    (∀ existing, statFS fs path = some (.file existing) →
        lazyStore fs path content = .ok fs) ∧
      (statFS fs path = none →
        lazyStore fs path content = .ok (storeFS fs path content) ∧
          statFS (storeFS fs path content) path = some (.file content)) ∧
      (statFS fs path = some .dir →
        lazyStore fs path content = .error .existsAsDir) ∧
      (∀ drv hash drv', setDedupedBlock drv hash content = .ok drv' →
        ∀ p existing, statFS drv.fs p = some (.file existing) →
          statFS drv'.fs p = some (.file existing)) := by
  refine ⟨fun existing hstat => ?_, fun hstat => ⟨?_, ?_⟩, fun hstat => ?_,
    fun drv hash drv' h p existing hp =>
      setDedupedBlock_preserves_files drv hash content drv' h p existing hp⟩
  · simp [lazyStore, hstat]
  · simp [lazyStore, hstat]
  · show statFS ⟨(path, .file content) :: fs.entries⟩ path
      = some (.file content)
    rw [statFS_cons]
    simp
  · simp [lazyStore, hstat]

/-- C10 (witness): on a store holding the file `[9]` at path `[5]`, a
repeated store of that path succeeds and changes nothing; a store at the
fresh path `[6]` uploads; a store at a directory path fails; and a concrete
successful `SetDedupedBlock` keeps the pre-existing block readable. -/
theorem lazyStore_never_overwrites_witness :
    lazyStore ⟨[([5], .file [9])]⟩ [5] [7] = .ok ⟨[([5], .file [9])]⟩ ∧
      lazyStore ⟨[([5], .file [9])]⟩ [6] [7]
        = .ok (storeFS ⟨[([5], .file [9])]⟩ [6] [7]) ∧
      lazyStore ⟨[([5], .dir)]⟩ [5] [7] = .error .existsAsDir ∧
      statFS (⟨[], [],
          ⟨[([1, 1, 47, 1, 1, 47] ++ List.replicate 28 1, .file [7]),
            ([1, 1, 47, 1, 1], .dir), ([1, 1], .dir),
            ([5], .file [9])]⟩⟩ : FTPDriver).fs [5]
        = some (.file [9]) :=
  ⟨(lazyStore_never_overwrites ⟨[([5], .file [9])]⟩ [5] [7]).1 [9] (by rfl),
    ((lazyStore_never_overwrites ⟨[([5], .file [9])]⟩ [6] [7]).2.1 (by rfl)).1,
    (lazyStore_never_overwrites ⟨[([5], .dir)]⟩ [5] [7]).2.2.1 (by rfl),
    (lazyStore_never_overwrites ⟨[([5], .file [9])]⟩ [5] [7]).2.2.2
      ⟨[], [], ⟨[([5], .file [9])]⟩⟩ (List.replicate 32 1)
      ⟨[], [],
        ⟨[([1, 1, 47, 1, 1, 47] ++ List.replicate 28 1, .file [7]),
          ([1, 1, 47, 1, 1], .dir), ([1, 1], .dir), ([5], .file [9])]⟩⟩
      (by rfl) [5] [9] (by rfl)⟩

/-- C9: calling `DoForAll` with an empty pair list returns a nil reply slice
and no error, without dialing any server connection — for `UniCluster`
(where the dial count is `0`) and for `Cluster` (where the list of dialed
server indices is empty). -/
theorem doForAll_empty_pairs {Action Reply : Type} (uniExec : Action → Reply)
    (fuel : Nat) (cluster : GoCluster) (exec : Int → Action → Reply) :
    uniDoForAll uniExec [] = (.ok [], 0) ∧
      clusterDoForAll fuel cluster exec [] = (.ok [], []) :=
  ⟨rfl, rfl⟩

end Zerodisk
